import Mathlib

/-!
Verification of the g4vg core (Geant4 → VecGeom conversion facade).

The definitions below are a shallow embedding of the code in
`src/G4VG.hh`, `src/G4VG.cc` and `src/detail/TranslationTypes.hh`.
External collaborators (the geocel `Converter`, Geant4's GDML name
generator and reflection factory) are modelled from the specification,
as marked in their doc comments.
-/

namespace G4VG

/-! ### OpaqueId (src/detail/TranslationTypes.hh, lines 96-158)

`OpaqueId<ValueT, SizeT>` stores a `SizeT` (an unsigned integer type);
in this build `SizeT = std::size_t`, a 64-bit unsigned integer.  We model
the stored machine word as a `Nat` reduced modulo `2 ^ 64` by every
operation that writes it. -/

/-- Number of values of `std::size_t` (64-bit): `2 ^ 64`. -/
def size_card : Nat := 2 ^ 64

/-- Model of `OpaqueId<ValueT>`: a wrapper around the stored unsigned value. -/
structure OpaqueId where
  value : Nat
deriving DecidableEq

/-- `static size_type invalid_value() { return static_cast<size_type>(-1); }`:
the all-bits-set sentinel `2 ^ 64 - 1`. -/
def OpaqueId.invalid_value : Nat := size_card - 1

/-- Default constructor `OpaqueId() : value_(OpaqueId::invalid_value()) {}`. -/
def OpaqueId.mkDefault : OpaqueId := ⟨OpaqueId.invalid_value⟩

/-- Explicit constructor `OpaqueId(size_type index) : value_(index) {}`;
storing into the unsigned word reduces modulo `2 ^ 64`. -/
def OpaqueId.ofIndex (i : Nat) : OpaqueId := ⟨i % size_card⟩

/-- `explicit operator bool() const { return value_ != invalid_value(); }`. -/
def OpaqueId.isValid (x : OpaqueId) : Bool := x.value != OpaqueId.invalid_value

/-- Pre-increment `operator++`: `value_ += 1` in unsigned arithmetic. -/
def OpaqueId.preInc (x : OpaqueId) : OpaqueId := ⟨(x.value + 1) % size_card⟩

/-- Post-increment `operator++(int)`: copies the old value, pre-increments,
and returns the copy.  The pair is (new state of the id, returned copy). -/
def OpaqueId.postInc (x : OpaqueId) : OpaqueId × OpaqueId := (x.preInc, x)

/-- `size_type get() const { return value_; }` (checked accessor; the
validity precondition is compiled out in this build). -/
def OpaqueId.get (x : OpaqueId) : Nat := x.value

/-- `size_type unchecked_get() const { return value_; }`. -/
def OpaqueId.unchecked_get (x : OpaqueId) : Nat := x.value

/-! ### SoftEqual (src/detail/TranslationTypes.hh, lines 409-573)

The comparator works on `double`s.  We model IEEE values with exact
rational finite parts: `FP` is NaN, a signed infinity, or a finite
rational.  Rounding is not modelled; NaN/infinity propagation follows
IEEE-754 (`std::fabs`, `std::fmax`, subtraction, multiplication, `<`). -/

/-- Model of a `double`: NaN, infinity (sign `true` = positive), or finite. -/
inductive FP where
  | nan : FP
  | inf : Bool → FP
  | fin : ℚ → FP
deriving DecidableEq

/-- `std::fabs`. -/
def FP.fabs : FP → FP
  | .nan => .nan
  | .inf _ => .inf true
  | .fin x => .fin |x|

/-- IEEE subtraction `a - b`: NaN propagates; `∞ - ∞` of equal signs is NaN. -/
def FP.sub (a b : FP) : FP :=
  match a with
  | .nan => .nan
  | .inf s =>
    match b with
    | .nan => .nan
    | .inf t => if s = t then .nan else .inf s
    | .fin _ => .inf s
  | .fin x =>
    match b with
    | .nan => .nan
    | .inf t => .inf !t
    | .fin y => .fin (x - y)

/-- IEEE multiplication `a * b`: NaN propagates; `0 * ∞` is NaN; signs multiply. -/
def FP.mul (a b : FP) : FP :=
  match a with
  | .nan => .nan
  | .inf s =>
    match b with
    | .nan => .nan
    | .inf t => .inf (s == t)
    | .fin y => if y = 0 then .nan else .inf (s == decide (0 < y))
  | .fin x =>
    match b with
    | .nan => .nan
    | .inf t => if x = 0 then .nan else .inf (t == decide (0 < x))
    | .fin y => .fin (x * y)

/-- `std::fmax`: a NaN operand is treated as missing; `+∞` dominates. -/
def FP.fmax (a b : FP) : FP :=
  match a with
  | .nan => b
  | .inf true => .inf true
  | .inf false =>
    match b with
    | .nan => .inf false
    | _ => b
  | .fin x =>
    match b with
    | .nan => .fin x
    | .inf true => .inf true
    | .inf false => .fin x
    | .fin y => .fin (max x y)

/-- IEEE `<`: any comparison involving NaN is false. -/
def FP.lt (a b : FP) : Bool :=
  match a with
  | .nan => false
  | .inf true => false
  | .inf false =>
    match b with
    | .nan => false
    | .inf true => true
    | .inf false => false
    | .fin _ => true
  | .fin x =>
    match b with
    | .nan => false
    | .inf true => true
    | .inf false => false
    | .fin y => decide (x < y)

/-- `SoftEqualTraits<double>::rel_prec()`, `1.0e-12`. -/
def SoftEqualTraits.rel_prec : ℚ := 1 / 10 ^ 12

/-- `SoftEqualTraits<double>::abs_thresh()`, `1.0e-14`. -/
def SoftEqualTraits.abs_thresh : ℚ := 1 / 10 ^ 14

/-- Model of `SoftEqual<double>`: the stored relative and absolute
tolerances (finite doubles, positive by the constructor's precondition). -/
structure SoftEqual where
  rel : ℚ
  abs : ℚ

/-- Default constructor: `rel_{SETraits::rel_prec()}, abs_{SETraits::abs_thresh()}`. -/
def SoftEqual.mkDefault : SoftEqual := ⟨SoftEqualTraits.rel_prec, SoftEqualTraits.abs_thresh⟩

/-- `SoftEqual::operator()(a, b)`:
`real_type rel = rel_ * std::fmax(std::fabs(a), std::fabs(b));`
`return std::fabs(a - b) < std::fmax(abs_, rel);` -/
def SoftEqual.eval (se : SoftEqual) (a b : FP) : Bool :=
  let rel := FP.mul (FP.fin se.rel) (FP.fmax (FP.fabs a) (FP.fabs b))
  FP.lt (FP.fabs (FP.sub a b)) (FP.fmax (FP.fin se.abs) rel)

/-! ### Name resolver (src/detail/TranslationTypes.hh, lines 190-218)

`make_gdml_name` calls two external Geant4 components:
`G4GDMLWriteStructure::GenerateName` (GDML canonicalization) and
`G4ReflectionFactory` (constituent lookup and name extension).  Those are
modelled from the specification; `make_gdml_name` itself is translated
from the source. -/

/-- Model of `G4LogicalVolume` as the name resolver sees it: a name string
plus the stable memory address that gives the volume its identity. -/
structure G4LogicalVolume where
  name : String
  addr : Nat
deriving DecidableEq

/-- Modelled from the spec: `G4GDMLWriteStructure::GenerateName` is the
interchange-format canonicalization, keyed by the volume's name plus its
stable address to guarantee uniqueness across distinct volumes. -/
def GenerateName (name : String) (addr : Nat) : String :=
  name ++ "0x" ++ toString addr

/-- Modelled from the spec: `G4ReflectionFactory::GetVolumesNameExtension`,
the reflection ecosystem's standard suffix appended to reflected names. -/
def VolumesNameExtension : String := "_refl"

/-- Model of `make_gdml_name`.  The reflection factory's
`GetConstituentLV` lookup (external, process-global state) is passed in as
`constituentLV`: it returns the constituent volume when the argument is a
reflected copy, and `none` otherwise. -/
def make_gdml_name (constituentLV : G4LogicalVolume → Option G4LogicalVolume)
    (lv : G4LogicalVolume) : String :=
  match constituentLV lv with
  | some unrefl_lv =>
      GenerateName unrefl_lv.name unrefl_lv.addr ++ VolumesNameExtension
  | none => GenerateName lv.name lv.addr

/-! ### Structured runtime error (src/detail/TranslationTypes.hh, lines 306-407) -/

/-- `struct RuntimeErrorDetails`. -/
structure RuntimeErrorDetails where
  which : String
  what : String
  condition : String
  file : String
  line : Int
deriving DecidableEq

/-- `color_code`: always returns the empty string in this build. -/
def color_code (_ : Char) : String := ""

/-- `verbose_message`: hardcoded to `true` in this build (the env-var gate
is commented out in the source). -/
def verbose_message : Bool := true

/-- The canned prefix text for "configuration" errors. -/
def config_msg : String := "required dependency is disabled in this build"

/-- The canned prefix text for "implementation" errors. -/
def impl_msg : String := "feature is not yet implemented"

/-- Model of `build_runtime_error_msg`: the sequence of stream insertions,
with `color_code` inlined (it returns `""`). -/
def build_runtime_error_msg (d : RuntimeErrorDetails) : String :=
  let head := "celeritas: " ++ color_code 'R'
      ++ (if d.which = "" then "unknown" else d.which)
      ++ " error: " ++ color_code ' '
  let canned :=
    if d.which = "configuration" then config_msg ++ ": "
    else if d.which = "implementation" then impl_msg ++ ": "
    else ""
  let base := head ++ canned ++ d.what
  if verbose_message || d.what == "" || d.which != "runtime" then
    let loc := (if d.file = "" then "unknown source" else d.file)
        ++ (if d.line ≠ 0 ∧ d.file ≠ "" then ":" ++ toString d.line else "")
    let cond :=
      if d.condition ≠ "" then " '" ++ d.condition ++ "' failed" else " failure"
    base ++ "\n" ++ color_code (if d.condition = "" then 'x' else 'W')
      ++ loc ++ ":" ++ color_code ' ' ++ cond
  else base

/-- The fixed leading part of the message: `"celeritas: " + kind + " error: "`. -/
def error_head (d : RuntimeErrorDetails) : String :=
  "celeritas: " ++ (if d.which = "" then "unknown" else d.which) ++ " error: "

/-- The canned text inserted for a given error kind (empty for kinds other
than "configuration" and "implementation"). -/
def canned_text (w : String) : String :=
  if w = "configuration" then config_msg ++ ": "
  else if w = "implementation" then impl_msg ++ ": "
  else ""

/-- The location/condition detail block: newline, source file (with line
number when both are present), and the failed-condition text. -/
def location_block (d : RuntimeErrorDetails) : String :=
  "\n" ++ ((if d.file = "" then "unknown source" else d.file)
      ++ (if d.line ≠ 0 ∧ d.file ≠ "" then ":" ++ toString d.line else ""))
    ++ ":"
    ++ (if d.condition ≠ "" then " '" ++ d.condition ++ "' failed" else " failure")

/-- Boolean substring test used to state the "message contains ..." claims. -/
def strContains (s pat : String) : Bool :=
  decide (pat.data <:+: s.data)

/-! ### Conversion facade (src/G4VG.hh, src/G4VG.cc)

Geant4 logical volumes are identified by their stable addresses; we model
a handle (`G4LogicalVolume const*`) as a `Nat`.  The source geometry is a
world placement plus, for each logical volume, the list of its daughter
placements (one list entry per placement, each referencing the placed
logical volume — the same volume may appear many times). -/

/-- A source geometry: `daughters lv` lists, one entry per physical
placement inside `lv`, the handle of the placed logical volume; `worldLV`
is the logical volume of the world placement; `numLV` bounds the depth of
the volume tree (the number of logical volumes in the source model). -/
structure Geometry where
  daughters : Nat → List Nat
  worldLV : Nat
  numLV : Nat

/-- One breadth step of reachability: keep the volumes seen so far and add
every volume placed directly inside one of them, deduplicated. -/
def reachStep (d : Nat → List Nat) (s : List Nat) : List Nat :=
  (s ++ s.flatMap d).dedup

/-- The distinct logical volumes reachable from the world: iterate
`reachStep` once per logical volume (a DAG's depth is at most `numLV`),
starting from the world volume, and deduplicate. -/
def reachableLVs (g : Geometry) : List Nat :=
  ((reachStep g.daughters)^[g.numLV] [g.worldLV]).dedup

/-- `struct Options` (src/G4VG.hh, lines 33-43). -/
structure Options where
  verbose : Bool
  compare_volumes : Bool
deriving DecidableEq

/-- A default-constructed `Options` (`{}`): both flags false. -/
def Options.mkDefault : Options := ⟨false, false⟩

/-- `Options::scale`, the fixed linear-unit scale constant. -/
def Options.scale : ℚ := 1

/-- `celeritas::g4vg::Converter::Options`, built by the facade from the
public options. -/
structure ConverterOptions where
  verbose : Bool
  compare_volumes : Bool
deriving DecidableEq

/-- `VolumeId = OpaqueId<struct Volume_>`. -/
abbrev VolumeId := OpaqueId

/-- The external converter's result: a destination world handle plus a map
from source logical volume handle to internal `VolumeId`, modelled as an
association list (the iteration of an `std::unordered_map`, so its keys
are distinct). -/
structure GeocelResult where
  world : Nat
  volumes : List (Nat × VolumeId)

/-- Assign dense internal ids `n, n+1, …` to a list of volume handles. -/
def assignIds : Nat → List Nat → List (Nat × VolumeId)
  | _, [] => []
  | n, lv :: ls => (lv, OpaqueId.ofIndex n) :: assignIds (n + 1) ls

/-- Modelled from the spec: the external `celeritas::g4vg::Converter`
(out of scope; only its contract is specified) walks the source DAG once
per distinct logical volume and returns a destination world handle plus a
map holding exactly one entry per distinct reachable logical volume, with
dense internal ids. -/
def Converter.run (_ : ConverterOptions) (g : Geometry) : GeocelResult :=
  { world := g.worldLV
    volumes := assignIds 0 (reachableLVs g) }

/-- `struct Converted` (src/G4VG.hh, lines 49-59): the public result map
is an `unordered_map<G4LogicalVolume const*, unsigned int>`, modelled as
an association list. -/
structure Converted where
  world : Nat
  volumes : List (Nat × Nat)

/-- `unordered_map::insert`: a no-op when the key is already present. -/
def mapInsert (m : List (Nat × Nat)) (k v : Nat) : List (Nat × Nat) :=
  if m.any (fun p => p.1 == k) then m else m ++ [(k, v)]

/-- The remapping loop of `convert` (src/G4VG.cc, lines 45-52):
`for (auto&& [lv, vid] : geocel_result.volumes)
   converted.volumes.insert({lv, vid.unchecked_get()});` -/
def remapVolumes (vols : List (Nat × VolumeId)) : List (Nat × Nat) :=
  vols.foldl (fun m p => mapInsert m p.1 p.2.unchecked_get) []

/-- The facade's output-remapping step: keep the converter's world pointer
and strip each internal id down to its unchecked plain integer. -/
def facadeRemap (r : GeocelResult) : Converted :=
  { world := r.world
    volumes := remapVolumes r.volumes }

/-- `convert(world, options)` (src/G4VG.cc, lines 30-55): build the
converter options from the public options, run the external converter,
and remap its output. -/
def convert2 (g : Geometry) (options : Options) : Converted :=
  let geocel_opts : ConverterOptions :=
    { verbose := options.verbose
      compare_volumes := options.compare_volumes }
  facadeRemap (Converter.run geocel_opts g)

/-- `convert(world)` (src/G4VG.cc, lines 21-24): `convert(world, {})`. -/
def convert1 (g : Geometry) : Converted :=
  convert2 g Options.mkDefault

/-! ### Example inputs used by witnesses -/

/-- A concrete constituent-lookup: "trap"@2 is the reflected copy of "orig"@1. -/
def cmap_example : G4LogicalVolume → Option G4LogicalVolume :=
  fun v => if v = ⟨"trap", 2⟩ then some ⟨"orig", 1⟩ else none

/-- The reflected volume of the example lookup. -/
def lv_refl_example : G4LogicalVolume := ⟨"trap", 2⟩

/-- The constituent volume of the example lookup. -/
def lv_orig_example : G4LogicalVolume := ⟨"orig", 1⟩

/-- A concrete converter result with two mapped volumes. -/
def geocel_example : GeocelResult :=
  ⟨42, [(10, OpaqueId.ofIndex 0), (11, OpaqueId.ofIndex 1)]⟩

/-- Error details whose free-text message happens to contain the
"configuration" canned prefix while the kind is "runtime". -/
def cex_details : RuntimeErrorDetails :=
  ⟨"runtime", "required dependency is disabled in this build", "cond", "file.cc", 3⟩

/-! ### Theorems -/

/-- Numeric value of `size_card`, for `omega`. -/
theorem size_card_eq : size_card = 18446744073709551616 := rfl

/-- C9: the single-argument `convert(world)` returns the same result as
`convert(world, options)` called with a default-constructed `Options`
(`verbose = false`, `compare_volumes = false`). -/
theorem convert_default_options (g : Geometry) :
    convert1 g = convert2 g Options.mkDefault
    ∧ Options.mkDefault.verbose = false
    ∧ Options.mkDefault.compare_volumes = false :=
  ⟨rfl, rfl, rfl⟩

/-- C7: a default-constructed `OpaqueId` is invalid (boolean conversion
false), stores the all-bits-set sentinel `2 ^ 64 - 1`, and differs from
every id explicitly constructed with an index in `0 … 2 ^ 64 - 2`, each of
which converts to true. -/
theorem opaque_id_default_invalid :
    (OpaqueId.mkDefault.isValid = false
      ∧ OpaqueId.mkDefault.value = size_card - 1)
    ∧ ∀ i : Nat, i ≤ size_card - 2 →
        (OpaqueId.ofIndex i).isValid = true
        ∧ OpaqueId.ofIndex i ≠ OpaqueId.mkDefault := by
  refine ⟨⟨by simp [OpaqueId.isValid, OpaqueId.mkDefault], rfl⟩, ?_⟩
  intro i hi
  rw [size_card_eq] at hi
  have hmod : i % size_card = i := Nat.mod_eq_of_lt (by rw [size_card_eq]; omega)
  constructor
  · simp only [OpaqueId.isValid, OpaqueId.ofIndex, hmod, bne_iff_ne, ne_eq,
      OpaqueId.invalid_value, size_card_eq]
    omega
  · intro heq
    have hval : i % size_card = OpaqueId.invalid_value :=
      congrArg OpaqueId.value heq
    rw [hmod, OpaqueId.invalid_value, size_card_eq] at hval
    omega

/-- Witness for C7 at the concrete index 3. -/
theorem opaque_id_default_invalid_witness :
    (3 ≤ size_card - 2)
    ∧ ((OpaqueId.ofIndex 3).isValid = true
        ∧ OpaqueId.ofIndex 3 ≠ OpaqueId.mkDefault) :=
  ⟨by rw [size_card_eq]; omega, opaque_id_default_invalid.2 3 (by rw [size_card_eq]; omega)⟩

/-- C10: pre-incrementing a valid id whose value is strictly below
`2 ^ 64 - 2` yields a valid id storing `value + 1`; post-increment also
returns a copy holding the prior value; and pre-incrementing the id whose
value is exactly `2 ^ 64 - 2` yields the invalid sentinel. -/
theorem opaque_id_increment_props (x : OpaqueId) (hv : x.isValid = true)
    (h : x.value < size_card - 2) :
    (x.preInc.isValid = true ∧ x.preInc.value = x.value + 1
      ∧ x.postInc.2 = x ∧ x.postInc.1 = x.preInc)
    ∧ ((OpaqueId.ofIndex (size_card - 2)).preInc = OpaqueId.mkDefault
      ∧ (OpaqueId.ofIndex (size_card - 2)).preInc.isValid = false) := by
  rw [size_card_eq] at h
  have hmod : (x.value + 1) % size_card = x.value + 1 :=
    Nat.mod_eq_of_lt (by rw [size_card_eq]; omega)
  refine ⟨⟨?_, ?_, rfl, rfl⟩, ?_, ?_⟩
  · simp only [OpaqueId.isValid, OpaqueId.preInc, hmod, bne_iff_ne, ne_eq,
      OpaqueId.invalid_value, size_card_eq]
    omega
  · simp [OpaqueId.preInc, hmod]
  · decide
  · decide

/-- Witness for C10 at the concrete id 7. -/
theorem opaque_id_increment_props_witness :
    ((OpaqueId.ofIndex 7).isValid = true
      ∧ (OpaqueId.ofIndex 7).value < size_card - 2)
    ∧ (OpaqueId.ofIndex 7).preInc.value = (OpaqueId.ofIndex 7).value + 1 :=
  ⟨⟨by decide, by rw [size_card_eq]; decide⟩,
    (opaque_id_increment_props (OpaqueId.ofIndex 7) (by decide)
      (by rw [size_card_eq]; decide)).1.2.1⟩

/-- Helper: on finite doubles the comparator evaluates to the exact
rational comparison of the source formula. -/
theorem SoftEqual.eval_fin (se : SoftEqual) (x y : ℚ) :
    se.eval (FP.fin x) (FP.fin y)
      = decide (|x - y| < max se.abs (se.rel * max |x| |y|)) := by
  simp [SoftEqual.eval, FP.sub, FP.fabs, FP.fmax, FP.mul, FP.lt]

/-- C4: for positive tolerances the comparison on values `a`, `b` returns
true iff `|a - b| < max(abs, rel * max(|a|, |b|))`, with double-precision
defaults `1e-12` (relative) and `1e-14` (absolute). -/
theorem soft_equal_iff (se : SoftEqual) (hr : 0 < se.rel) (ha : 0 < se.abs)
    (x y : ℚ) :
    (se.eval (FP.fin x) (FP.fin y) = true
      ↔ |x - y| < max se.abs (se.rel * max |x| |y|))
    ∧ SoftEqual.mkDefault.rel = 1 / 10 ^ 12
    ∧ SoftEqual.mkDefault.abs = 1 / 10 ^ 14 := by
  refine ⟨?_, rfl, rfl⟩
  rw [SoftEqual.eval_fin]
  exact decide_eq_true_iff

/-- Witness for C4 at `rel = abs = 1`, `a = 0`, `b = 1`. -/
theorem soft_equal_iff_witness :
    ((0:ℚ) < (SoftEqual.mk 1 1).rel ∧ (0:ℚ) < (SoftEqual.mk 1 1).abs)
    ∧ ((SoftEqual.mk 1 1).eval (FP.fin 0) (FP.fin 1) = true
        ↔ |(0:ℚ) - 1|
          < max (SoftEqual.mk 1 1).abs ((SoftEqual.mk 1 1).rel * max |(0:ℚ)| |(1:ℚ)|)) :=
  ⟨⟨one_pos, one_pos⟩, (soft_equal_iff ⟨1, 1⟩ one_pos one_pos 0 1).1⟩

/-- C5: comparing NaN with any value (in either argument order) returns
false, and comparing two same-signed infinities returns false. -/
theorem soft_equal_nan_inf (se : SoftEqual) (x : FP) (s : Bool) :
    se.eval FP.nan x = false
    ∧ se.eval x FP.nan = false
    ∧ se.eval (FP.inf s) (FP.inf s) = false := by
  refine ⟨rfl, ?_, ?_⟩
  · cases x <;> rfl
  · cases s <;> rfl

/-- C6: for positive tolerances and finite values the comparison is
commutative and reflexive. -/
theorem soft_equal_comm_refl (se : SoftEqual) (hr : 0 < se.rel)
    (ha : 0 < se.abs) (x y : ℚ) :
    se.eval (FP.fin x) (FP.fin y) = se.eval (FP.fin y) (FP.fin x)
    ∧ se.eval (FP.fin x) (FP.fin x) = true := by
  constructor
  · rw [SoftEqual.eval_fin, SoftEqual.eval_fin, abs_sub_comm, max_comm |x| |y|]
  · rw [SoftEqual.eval_fin, decide_eq_true_iff]
    simp only [sub_self, abs_zero]
    exact lt_of_lt_of_le ha (le_max_left _ _)

/-- Witness for C6 at `rel = abs = 1`, `a = 2`, `b = 3`. -/
theorem soft_equal_comm_refl_witness :
    ((0:ℚ) < (SoftEqual.mk 1 1).rel ∧ (0:ℚ) < (SoftEqual.mk 1 1).abs)
    ∧ ((SoftEqual.mk 1 1).eval (FP.fin 2) (FP.fin 3)
        = (SoftEqual.mk 1 1).eval (FP.fin 3) (FP.fin 2)
      ∧ (SoftEqual.mk 1 1).eval (FP.fin 2) (FP.fin 2) = true) :=
  ⟨⟨one_pos, one_pos⟩, soft_equal_comm_refl ⟨1, 1⟩ one_pos one_pos 2 3⟩

/-- C3: a reflected volume's resolved name equals the constituent's
resolved name followed by the reflection name extension, and never equals
the constituent's resolved name itself. -/
theorem make_gdml_name_reflected
    (constituentLV : G4LogicalVolume → Option G4LogicalVolume)
    (lv u : G4LogicalVolume)
    (h1 : constituentLV lv = some u) (h2 : constituentLV u = none) :
    make_gdml_name constituentLV lv
      = make_gdml_name constituentLV u ++ VolumesNameExtension
    ∧ make_gdml_name constituentLV lv ≠ make_gdml_name constituentLV u := by
  have he1 : make_gdml_name constituentLV lv
      = GenerateName u.name u.addr ++ VolumesNameExtension := by
    rw [make_gdml_name, h1]
  have he2 : make_gdml_name constituentLV u = GenerateName u.name u.addr := by
    rw [make_gdml_name, h2]
  refine ⟨by rw [he1, he2], ?_⟩
  rw [he1, he2]
  intro heq
  have hlen := congrArg String.length heq
  rw [String.length_append] at hlen
  have h5 : VolumesNameExtension.length = 5 := rfl
  omega

/-- Witness for C3 at the concrete reflected/constituent pair. -/
theorem make_gdml_name_reflected_witness :
    (cmap_example lv_refl_example = some lv_orig_example
      ∧ cmap_example lv_orig_example = none)
    ∧ (make_gdml_name cmap_example lv_refl_example
        = make_gdml_name cmap_example lv_orig_example ++ VolumesNameExtension
      ∧ make_gdml_name cmap_example lv_refl_example
        ≠ make_gdml_name cmap_example lv_orig_example) :=
  ⟨⟨by decide, by decide⟩,
    make_gdml_name_reflected cmap_example lv_refl_example lv_orig_example
      (by decide) (by decide)⟩

/-- Helper: folding `unordered_map::insert` over entries with pairwise
distinct keys, none already present, appends them all in order with their
ids unwrapped. -/
theorem foldl_mapInsert (vols : List (Nat × VolumeId)) (acc : List (Nat × Nat))
    (hnd : (vols.map Prod.fst).Nodup)
    (hdisj : ∀ p ∈ vols, acc.any (fun q => q.1 == p.1) = false) :
    vols.foldl (fun m p => mapInsert m p.1 p.2.unchecked_get) acc
      = acc ++ vols.map (fun p => (p.1, p.2.unchecked_get)) := by
  induction vols generalizing acc with
  | nil => simp
  | cons p tl ih =>
    rw [List.map_cons, List.nodup_cons] at hnd
    have hp : acc.any (fun q => q.1 == p.1) = false :=
      hdisj p (List.mem_cons_self p tl)
    have hstep : mapInsert acc p.1 p.2.unchecked_get
        = acc ++ [(p.1, p.2.unchecked_get)] := by
      simp [mapInsert, hp]
    have hdisj2 : ∀ q ∈ tl,
        (acc ++ [(p.1, p.2.unchecked_get)]).any (fun r => r.1 == q.1) = false := by
      intro q hq
      rw [List.any_append, hdisj q (List.mem_cons_of_mem p hq)]
      simp only [List.any_cons, List.any_nil, Bool.false_or, Bool.or_false,
        beq_iff_eq]
      exact decide_eq_false fun heq => hnd.1 (heq ▸ List.mem_map_of_mem Prod.fst hq)
    rw [List.foldl_cons, hstep, ih (acc ++ [(p.1, p.2.unchecked_get)]) hnd.2 hdisj2,
      List.append_assoc, List.singleton_append, List.map_cons]

/-- Helper: with distinct keys, the remapping loop is a pointwise map. -/
theorem remapVolumes_eq (vols : List (Nat × VolumeId))
    (h : (vols.map Prod.fst).Nodup) :
    remapVolumes vols = vols.map (fun p => (p.1, p.2.unchecked_get)) := by
  have hz := foldl_mapInsert vols [] h (by intro p _; rfl)
  simpa [remapVolumes] using hz

/-- Helper: with distinct keys, the remapping loop keeps the key list. -/
theorem remapVolumes_map_fst (vols : List (Nat × VolumeId))
    (h : (vols.map Prod.fst).Nodup) :
    (remapVolumes vols).map Prod.fst = vols.map Prod.fst := by
  rw [remapVolumes_eq vols h, List.map_map]
  rfl

/-- C2: the facade's remapping keeps the converter's world pointer
unchanged, keeps the key set of the internal map, and maps every internal
identifier to its `unchecked_get()` raw integer. -/
theorem facade_remap_spec (r : GeocelResult)
    (h : (r.volumes.map Prod.fst).Nodup) :
    (facadeRemap r).world = r.world
    ∧ (facadeRemap r).volumes
        = r.volumes.map (fun p => (p.1, p.2.unchecked_get))
    ∧ (facadeRemap r).volumes.map Prod.fst = r.volumes.map Prod.fst :=
  ⟨rfl, remapVolumes_eq r.volumes h, remapVolumes_map_fst r.volumes h⟩

/-- Witness for C2 at a concrete two-entry converter result. -/
theorem facade_remap_spec_witness :
    (geocel_example.volumes.map Prod.fst).Nodup
    ∧ ((facadeRemap geocel_example).world = geocel_example.world
      ∧ (facadeRemap geocel_example).volumes
          = geocel_example.volumes.map (fun p => (p.1, p.2.unchecked_get))) :=
  ⟨by decide,
    ⟨(facade_remap_spec geocel_example (by decide)).1,
     (facade_remap_spec geocel_example (by decide)).2.1⟩⟩

/-- Helper: `assignIds` keys are exactly the input volume list. -/
theorem assignIds_map_fst (n : Nat) (l : List Nat) :
    (assignIds n l).map Prod.fst = l := by
  induction l generalizing n with
  | nil => rfl
  | cons a l ih => simp [assignIds, ih]

/-- Helper: the public result map of `convert` is keyed exactly by the
distinct reachable logical volumes, in converter order. -/
theorem convert2_volumes_keys (g : Geometry) (options : Options) :
    (convert2 g options).volumes.map Prod.fst = reachableLVs g := by
  have hnd : ((assignIds 0 (reachableLVs g)).map Prod.fst).Nodup := by
    rw [assignIds_map_fst]
    exact List.nodup_dedup _
  calc (convert2 g options).volumes.map Prod.fst
      = (assignIds 0 (reachableLVs g)).map Prod.fst :=
        remapVolumes_map_fst (assignIds 0 (reachableLVs g)) hnd
    _ = reachableLVs g := assignIds_map_fst 0 _

/-- C1: the result map of `convert` has exactly one entry per distinct
logical volume reachable from the world: its key set equals the set of
distinct reachable logical volumes, its keys are pairwise distinct, and
its cardinality is the number of distinct reachable volumes (not the
number of placements). -/
theorem convert_distinct_volumes (g : Geometry) (options : Options) :
    ((convert2 g options).volumes.map Prod.fst = reachableLVs g)
    ∧ (∀ lv, lv ∈ (convert2 g options).volumes.map Prod.fst
        ↔ lv ∈ reachableLVs g)
    ∧ ((convert2 g options).volumes.map Prod.fst).Nodup
    ∧ (convert2 g options).volumes.length = (reachableLVs g).length := by
  have hk := convert2_volumes_keys g options
  refine ⟨hk, fun lv => by rw [hk], by rw [hk]; exact List.nodup_dedup _, ?_⟩
  have := congrArg List.length hk
  rwa [List.length_map] at this

/-- Helper: a string equal to `a ++ (p ++ b)` contains `p`. -/
theorem strContains_of_middle (s a p b : String) (h : s = a ++ (p ++ b)) :
    strContains s p = true := by
  refine decide_eq_true ⟨a.data, b.data, ?_⟩
  rw [h]
  simp [String.data_append]

/-- Helper: a string equal to `a ++ p` contains `p`. -/
theorem strContains_of_end (s a p : String) (h : s = a ++ p) :
    strContains s p = true := by
  refine decide_eq_true ⟨a.data, [], ?_⟩
  rw [h]
  simp [String.data_append]

/-- Helper: `build_runtime_error_msg` decomposes into the fixed header, the
kind-dependent canned text, the raw message, and the location/condition
detail block (always appended in this build, where `verbose_message` is
hardcoded to true). -/
theorem build_msg_decompose (d : RuntimeErrorDetails) :
    build_runtime_error_msg d
      = error_head d ++ (canned_text d.which ++ (d.what ++ location_block d)) := by
  simp only [build_runtime_error_msg, verbose_message, color_code, Bool.true_or,
    if_true, error_head, canned_text, location_block, String.append_empty,
    String.empty_append, String.append_assoc]

/-- C8 (amended): the rendered message is the header followed by the canned
text, the raw message, and the location/condition detail; the canned text
is the "configuration" prefix exactly for kind "configuration" and the
"implementation" prefix exactly for kind "implementation" (empty for every
other kind, which therefore gets the raw message with nothing inserted by
the formatter); when the kind is "configuration" (resp. "implementation")
the message contains the canned prefix; and the location/condition detail
is included whenever the kind is not "runtime" or the message is empty. -/
theorem build_runtime_error_msg_props (d : RuntimeErrorDetails) :
    (build_runtime_error_msg d
      = error_head d ++ (canned_text d.which ++ (d.what ++ location_block d)))
    ∧ (canned_text "configuration" = config_msg ++ ": ")
    ∧ (canned_text "implementation" = impl_msg ++ ": ")
    ∧ (d.which ≠ "configuration" → d.which ≠ "implementation" →
        canned_text d.which = "")
    ∧ (d.which = "configuration" →
        strContains (build_runtime_error_msg d) config_msg = true)
    ∧ (d.which = "implementation" →
        strContains (build_runtime_error_msg d) impl_msg = true)
    ∧ ((d.which ≠ "runtime" ∨ d.what = "") →
        strContains (build_runtime_error_msg d) (location_block d) = true) := by
  have h1 := build_msg_decompose d
  refine ⟨h1, rfl, rfl, ?_, ?_, ?_, ?_⟩
  · intro hc hi
    simp [canned_text, hc, hi]
  · intro hc
    rw [hc] at h1
    have h2 : build_runtime_error_msg d
        = error_head d ++ (config_msg ++ (": " ++ (d.what ++ location_block d))) := by
      rw [h1]
      rw [show canned_text "configuration" = config_msg ++ ": " from rfl,
        String.append_assoc]
    exact strContains_of_middle _ _ _ _ h2
  · intro hc
    rw [hc] at h1
    have h2 : build_runtime_error_msg d
        = error_head d ++ (impl_msg ++ (": " ++ (d.what ++ location_block d))) := by
      rw [h1]
      rw [show canned_text "implementation" = impl_msg ++ ": " from rfl,
        String.append_assoc]
    exact strContains_of_middle _ _ _ _ h2
  · intro _
    have h2 : build_runtime_error_msg d
        = ((error_head d ++ canned_text d.which) ++ d.what) ++ location_block d := by
      rw [h1, String.append_assoc, String.append_assoc]
    exact strContains_of_end _ _ _ h2

/-- Witness for C8 at a concrete "configuration" error. -/
theorem build_runtime_error_msg_props_witness :
    ((RuntimeErrorDetails.mk "configuration" "m" "c" "f.cc" 1).which
        = "configuration")
    ∧ strContains
        (build_runtime_error_msg ⟨"configuration", "m", "c", "f.cc", 1⟩)
        config_msg = true :=
  ⟨rfl,
    (build_runtime_error_msg_props ⟨"configuration", "m", "c", "f.cc", 1⟩).2.2.2.2.1 rfl⟩

/-- Counterexample to C8 as stated: a "runtime"-kind error whose free-text
message happens to contain the "configuration" canned prefix renders to a
message containing that prefix although the kind is not "configuration". -/
theorem build_runtime_error_msg_cex :
    strContains (build_runtime_error_msg cex_details) config_msg = true
    ∧ cex_details.which ≠ "configuration" := by
  constructor
  · have h1 := build_msg_decompose cex_details
    have h2 : canned_text cex_details.which = "" := by decide
    rw [h2, String.empty_append] at h1
    exact strContains_of_middle _ _ _ _ h1
  · decide

end G4VG
